import Mathlib

/-!
Shallow embedding of the data-explorer dashboard (src/app.py):
a pandas dataframe is modelled as a header (column names with dtypes)
plus a list of rows; numeric NaN and categorical NA are `none`.
External library calls (plotly figures, sklearn PCA / StandardScaler)
are modelled symbolically; the repository's own glue logic
(extension dispatch, guards, cleaning, column selection) is modelled
exactly.
-/

/-- Cell of a dataframe: a numeric (float) cell whose `none` is NaN, or a
categorical (object) cell whose `none` is a missing value. -/
inductive Cell
  | num (val : Option ℚ)
  | cat (val : Option String)
deriving DecidableEq, Repr

/-- Dtype of a column: numeric (selected by `select_dtypes(include=np.number)`)
or categorical (everything else). -/
inductive ColType
  | numeric
  | categorical
deriving DecidableEq, Repr

/-- Dataframe: named, typed columns and a list of rows of cells. -/
structure DataFrame where
  header : List (String × ColType)
  rows : List (List Cell)
deriving DecidableEq, Repr

/-- Cell of row `n`, column `j` (as an option, out-of-range is `none`). -/
def cellAt (df : DataFrame) (n j : ℕ) : Option Cell :=
  (df.rows[n]?).bind (fun r => r[j]?)

/-- All cells of column `j`, top to bottom. -/
def colCells (df : DataFrame) (j : ℕ) : List Cell :=
  df.rows.filterMap (fun r => r[j]?)

/-- Non-missing numeric values among a list of cells. -/
def numValues (cells : List Cell) : List ℚ :=
  cells.filterMap (fun c =>
    match c with
    | .num (some q) => some q
    | _ => none)

/-- Non-missing categorical values among a list of cells
(`mode(dropna=True)` works on these). -/
def catValues (cells : List Cell) : List String :=
  cells.filterMap (fun c =>
    match c with
    | .cat (some s) => some s
    | _ => none)

/-- Median of a list of rationals, as pandas computes it: sort, take the
middle element, or the mean of the two middle elements; `none` on the empty
list (pandas returns NaN there). -/
def median (xs : List ℚ) : Option ℚ :=
  let s := List.insertionSort (fun a b => a ≤ b) xs
  let n := s.length
  if n = 0 then none
  else if n % 2 = 1 then s[n / 2]?
  else
    match s[n / 2 - 1]?, s[n / 2]? with
    | some a, some b => some ((a + b) / 2)
    | _, _ => none

/-- Number of occurrences of `v` in `xs`. -/
def countOccur (v : String) (xs : List String) : ℕ :=
  (xs.filter (fun w => w == v)).length

/-- Largest occurrence count over `xs`. -/
def maxCount (xs : List String) : ℕ :=
  xs.foldl (fun acc v => Nat.max acc (countOccur v xs)) 0

/-- Smallest string of a list, `none` on the empty list. -/
def minString : List String → Option String
  | [] => none
  | x :: xs => some (xs.foldl (fun a b => if b < a then b else a) x)

/-- First entry of `Series.mode(dropna=True)` on the given non-missing
values: pandas sorts the most frequent values ascending, so `.iloc[0]` is
the smallest most-frequent value; `none` when there are no values (then
`.iloc[0]` raises, which `clean` catches). -/
def modeOf (xs : List String) : Option String :=
  minString (xs.filter (fun v => countOccur v xs == maxCount xs))

/-- Fill a missing numeric cell with `m` (when `m` exists): models
`Series.fillna(median)`; a NaN median (empty column) fills nothing. -/
def fillNumCol (m : Option ℚ) (c : Cell) : Cell :=
  match c, m with
  | .num none, some q => .num (some q)
  | c, _ => c

/-- Fill a missing categorical cell with `m`: models `Series.fillna(mode_val)`. -/
def fillCatCell (m : String) (c : Cell) : Cell :=
  match c with
  | .cat none => .cat (some m)
  | c => c

/-- Categorical update parameterized by an optional mode value: with no
mode the cell is left as it is. -/
def catUpdate (mo : Option String) (c : Cell) : Cell :=
  match mo with
  | some m => fillCatCell m c
  | none => c

/-- Replace the cell at position `i` of a row by its image under `upd`
(rows without a position `i` are unchanged). -/
def fillColAt (upd : Cell → Cell) (i : ℕ) (r : List Cell) : List Cell :=
  match r[i]? with
  | some c => r.set i (upd c)
  | none => r

/-- Median of column `i` of `df` over its non-missing numeric values. -/
def colMedianQ (df : DataFrame) (i : ℕ) : Option ℚ :=
  median (numValues (colCells df i))

/-- Mode of column `i` of `df` over its non-missing categorical values. -/
def colModeQ (df : DataFrame) (i : ℕ) : Option String :=
  modeOf (catValues (colCells df i))

/-- One iteration of the numeric-imputation loop of `clean`:
`out[col] = out[col].fillna(out[col].median())` for column `i`. -/
def fillNumColAt (df : DataFrame) (i : ℕ) : DataFrame :=
  { df with rows := df.rows.map (fillColAt (fillNumCol (colMedianQ df i)) i) }

/-- One iteration of the categorical-imputation loop of `clean`:
`mode_val = out[col].mode(dropna=True).iloc[0]; out[col] = out[col].fillna(mode_val)`,
wrapped in `try/except: pass` — a column with no mode (all missing) raises
`IndexError` at `.iloc[0]` and is silently left unchanged. -/
def fillCatColAt (df : DataFrame) (i : ℕ) : DataFrame :=
  match colModeQ df i with
  | some m => { df with rows := df.rows.map (fillColAt (fillCatCell m) i) }
  | none => df

/-- Selector used by `select_dtypes(include=np.number)`. -/
def isNumType : ColType → Bool
  | .numeric => true
  | .categorical => false

/-- Indices of the columns whose dtype satisfies `p`. -/
def selIdxs (df : DataFrame) (p : ColType → Bool) : List ℕ :=
  (List.range df.header.length).filter (fun i =>
    ((df.header[i]?).map (fun hc => p hc.2)).getD false)

/-- Indices of the numeric columns (`select_dtypes(include=np.number).columns`). -/
def numericIdxs (df : DataFrame) : List ℕ :=
  selIdxs df isNumType

/-- Indices of the non-numeric columns (`select_dtypes(exclude=np.number).columns`). -/
def catIdxs (df : DataFrame) : List ℕ :=
  selIdxs df (fun t => !isNumType t)

/-- Numeric-imputation loop of `clean`: for each numeric column in order,
fill its NaNs with that column's median. -/
def imputeNum (df : DataFrame) : DataFrame :=
  (numericIdxs df).foldl fillNumColAt df

/-- Categorical-imputation loop of `clean`: for each non-numeric column in
order, fill its missing values with that column's mode when it has one. -/
def imputeCat (df : DataFrame) : DataFrame :=
  (catIdxs df).foldl fillCatColAt df

/-- Keep the first occurrence of every row, in order: the semantics of
`DataFrame.drop_duplicates()` (pandas treats NaN as equal to NaN here,
as does `Cell`'s decidable equality). -/
def dedupFirst {α : Type} [DecidableEq α] : List α → List α
  | [] => []
  | x :: xs => x :: dedupFirst (xs.filter (fun y => y != x))
termination_by l => l.length
decreasing_by
  simp only [List.length_cons]
  exact Nat.lt_succ_of_le (List.length_filter_le _ _)

/-- Model of `out.drop_duplicates()`. -/
def dropDuplicates (df : DataFrame) : DataFrame :=
  { df with rows := dedupFirst df.rows }

/-- Model of `clean` (src/app.py lines 81-95): copy, then the three
independently toggled steps, in order. -/
def clean (dd im ic : Bool) (df : DataFrame) : DataFrame :=
  let out1 := df
  let out2 := if dd then dropDuplicates out1 else out1
  let out3 := if im then imputeNum out2 else out2
  let out4 := if ic then imputeCat out3 else out3
  out4

/-- Objects alive during a call of `clean`: the caller's dataframe
(`df_raw`, the argument) and the local `out`. `out = df.copy()` deep-copies,
so statements on `out` never reach `arg`. -/
structure CleanLocals where
  arg : DataFrame
  out : DataFrame
deriving DecidableEq, Repr

/-- Statement `out = df.copy()`. -/
def stmtCopy (s : CleanLocals) : CleanLocals :=
  { s with out := s.arg }

/-- Statement `if drop_dupes: out = out.drop_duplicates()`. -/
def stmtDedup (dd : Bool) (s : CleanLocals) : CleanLocals :=
  if dd then { s with out := dropDuplicates s.out } else s

/-- Statement block `if impute_num: for col in ...: out[col] = ...fillna(median)`. -/
def stmtImputeNum (im : Bool) (s : CleanLocals) : CleanLocals :=
  if im then { s with out := imputeNum s.out } else s

/-- Statement block `if impute_cat: for col in ...: out[col] = ...fillna(mode)`. -/
def stmtImputeCat (ic : Bool) (s : CleanLocals) : CleanLocals :=
  if ic then { s with out := imputeCat s.out } else s

/-- The body of `clean` run statement-by-statement on the pair of live
objects, returning the final state of both. -/
def cleanProg (dd im ic : Bool) (df : DataFrame) : CleanLocals :=
  stmtImputeCat ic (stmtImputeNum im (stmtDedup dd (stmtCopy { arg := df, out := df })))

/-- Which third-party reader `load_file` delegates to. -/
inductive ReaderKind
  | excel
  | csv
deriving DecidableEq, Repr

/-- Lower-cased final extension of a filename:
`(file.name.split(".")[-1]).lower()`. -/
def fileSuffix (name : String) : String :=
  ((name.splitOn ".").getLastD "").toLower

/-- Dispatch of `load_file` (src/app.py lines 14-19): `xls`/`xlsx` go to
`pd.read_excel`, everything else to `pd.read_csv`. -/
def load_file (name : String) : ReaderKind :=
  if fileSuffix name ∈ (["xls", "xlsx"] : List String) then .excel else .csv

/-- Model of `DataFrame.empty`: true when either axis has length 0. -/
def pandasEmpty (df : DataFrame) : Bool :=
  df.rows.isEmpty || df.header.isEmpty

/-- Outcome of the load/validate boundary (src/app.py lines 65-73). -/
inductive LoadOutcome
  | haltedWithError (msg : String)
  | haltedEmptyWarning
  | proceed (df : DataFrame)
deriving DecidableEq, Repr

/-- The load/validate boundary: a reader exception becomes `st.error` +
`st.stop`; an empty dataframe becomes `st.warning` + `st.stop`; otherwise
rendering proceeds with the loaded dataframe. -/
def afterLoad (res : Except String DataFrame) : LoadOutcome :=
  match res with
  | .error e => .haltedWithError e
  | .ok df => if pandasEmpty df then .haltedEmptyWarning else .proceed df

/-- The stages (tabs) that execute for a given boundary outcome: after
`st.stop()` nothing below runs; on `proceed` all four tabs render. -/
def stagesRun : LoadOutcome → List String
  | .proceed _ => ["preview", "stats", "visualize", "pca"]
  | _ => []

/-- Model of `df.select_dtypes(...)`: the sub-dataframe of the columns
whose dtype satisfies `p`, keeping column order and all rows. -/
def selectCols (df : DataFrame) (p : ColType → Bool) : DataFrame :=
  { header := (selIdxs df p).filterMap (fun i => df.header[i]?),
    rows := df.rows.map (fun r => (selIdxs df p).filterMap (fun i => r[i]?)) }

/-- Values of column `i` of `df` as optional rationals (missing = `none`). -/
def colOptValues (df : DataFrame) (i : ℕ) : List (Option ℚ) :=
  df.rows.map (fun r =>
    match r[i]? with
    | some (Cell.num o) => o
    | _ => none)

/-- Pairwise-complete observations of two columns, as pandas `corr` uses:
rows where both values are present. -/
def pairComplete (xs ys : List (Option ℚ)) : List (ℚ × ℚ) :=
  (xs.zip ys).filterMap (fun p =>
    match p with
    | (some a, some b) => some (a, b)
    | _ => none)

/-- Sufficient statistics of a Pearson correlation entry: the sample size
and the centered sums; the displayed float is `sxy / sqrt (sxx * syy)`,
the only step (an irrational square root evaluated in floating point) not
carried out in the model. -/
structure PearsonStat where
  n : ℕ
  sxy : ℚ
  sxx : ℚ
  syy : ℚ
deriving DecidableEq, Repr

/-- Pearson statistics of two columns over their pairwise-complete
observations. -/
def pearsonStats (xs ys : List (Option ℚ)) : PearsonStat :=
  let ps := pairComplete xs ys
  let n := ps.length
  if n = 0 then ⟨0, 0, 0, 0⟩
  else
    let mx := (ps.map Prod.fst).sum / (n : ℚ)
    let my := (ps.map Prod.snd).sum / (n : ℚ)
    ⟨n, (ps.map (fun p => (p.1 - mx) * (p.2 - my))).sum,
        (ps.map (fun p => (p.1 - mx) ^ 2)).sum,
        (ps.map (fun p => (p.2 - my) ^ 2)).sum⟩

/-- Correlation matrix: row/column labels and the Pearson statistics of
every pair of labelled columns. -/
structure CorrMatrix where
  labels : List String
  entries : List (List PearsonStat)
deriving DecidableEq, Repr

/-- Model of `corr_numeric` (src/app.py lines 38-43): select the numeric
columns; `None` when fewer than two remain, otherwise their pairwise
correlation matrix. -/
def corr_numeric (df : DataFrame) : Option CorrMatrix :=
  let num := selectCols df isNumType
  if num.header.length < 2 then none
  else
    some { labels := num.header.map Prod.fst,
           entries := (List.range num.header.length).map (fun i =>
             (List.range num.header.length).map (fun j =>
               pearsonStats (colOptValues num i) (colOptValues num j))) }

/-- What the correlation section of the Quality tab renders. -/
inductive CorrTabResult
  | infoMsg
  | heatmap (m : CorrMatrix)
deriving DecidableEq, Repr

/-- Correlation section of the Quality tab (src/app.py lines 137-144):
`corr is None` shows an informational message, otherwise the heatmap. -/
def corrTab (df : DataFrame) : CorrTabResult :=
  match corr_numeric df with
  | none => .infoMsg
  | some m => .heatmap m

/-- Symbolic description of the grouped dataframe `plot_df` built by the
chart tab: the grouping columns, the aggregated column (`none` for
`.size()`), and the aggregation name. -/
structure GroupedPlot where
  groupCols : List String
  aggCol : Option String
  aggFn : String
deriving DecidableEq, Repr

/-- Symbolic plotly figure: which `px` call the chart tab issues and with
which data and encodings. -/
inductive Fig
  | bar (data : GroupedPlot) (x yPlot : String) (color : Option String)
  | line (data : GroupedPlot) (x yPlot : String) (color : Option String)
  | scatterRaw (data : DataFrame) (x y : String) (color : Option String)
  | box (data : DataFrame) (x : String) (y : Option String) (color : Option String)
deriving DecidableEq, Repr

/-- What the chart tab renders: a figure, or an informational message and
no figure (`fig = None`). -/
inductive ChartResult
  | chart (f : Fig)
  | infoNoChart
deriving DecidableEq, Repr

/-- The `plot_df` construction of the chart tab (src/app.py lines 157-183). -/
def buildPlotDf (x y color agg : String) : GroupedPlot :=
  if y = "(count)" then
    { groupCols := [x] ++ (if color ≠ "(none)" then [color] else []),
      aggCol := none, aggFn := "size" }
  else if agg = "count" then
    { groupCols := [x] ++ (if color ≠ "(none)" then [color] else []),
      aggCol := some y, aggFn := "count" }
  else
    { groupCols := [x] ++ (if color ≠ "(none)" then [color] else []),
      aggCol := some y, aggFn := agg }

/-- The chart tab (src/app.py lines 146-202): build `plot_df`, then
dispatch on the chart type; the scatter branch falls back to the raw
columns and only when `y` is `"(count)"` shows the informational message
and renders nothing. -/
def chartTab (df : DataFrame) (x y color kind agg : String) : ChartResult :=
  let plotDf := buildPlotDf x y color agg
  if kind = "bar" then
    .chart (.bar plotDf x "value" (if color = "(none)" then none else some color))
  else if kind = "line" then
    .chart (.line plotDf x "value" (if color = "(none)" then none else some color))
  else if kind = "scatter" then
    if y ≠ "(count)" then
      if color ≠ "(none)" then .chart (.scatterRaw df x y (some color))
      else .chart (.scatterRaw df x y none)
    else .infoNoChart
  else
    .chart (.box df x (if y = "(count)" then none else some y)
      (if color = "(none)" then none else some color))

/-- Whether `name` is a numeric column of `df`. -/
def isNumericColumn (df : DataFrame) (name : String) : Bool :=
  match df.header.find? (fun hc => hc.1 == name) with
  | some (_, .numeric) => true
  | _ => false

/-- Missing-value test of a cell (`isna`). -/
def isNACell : Cell → Bool
  | .num none => true
  | .cat none => true
  | _ => false

/-- Model of `dropna(axis=0)`: keep the rows without missing values. -/
def dropnaRows (df : DataFrame) : DataFrame :=
  { df with rows := df.rows.filter (fun r => r.all (fun c => !isNACell c)) }

/-- The `.values` matrix of a numeric dataframe. -/
def numMatrix (df : DataFrame) : List (List ℚ) :=
  df.rows.map (fun r => r.filterMap (fun c =>
    match c with
    | .num (some q) => some q
    | _ => none))

/-- The matrix handed to `PCA.fit_transform`: the numeric values, either
passed through `StandardScaler().fit_transform` or raw. The scaler and
the decomposition are external library calls, modelled symbolically. -/
inductive FitInput
  | standardized (m : List (List ℚ))
  | raw (m : List (List ℚ))
deriving DecidableEq, Repr

/-- Symbolic record of a PCA run: the fitted matrix, the chosen number of
components, and which projected components the 2-D scatter shows. -/
structure PCARun where
  fitInput : FitInput
  nComponents : ℕ
  plottedComponents : ℕ × ℕ
deriving DecidableEq, Repr

/-- What the PCA tab renders: an informational message, or a run whose
explained-variance ratios and PC1/PC2 scatter are displayed. -/
inductive PCATabResult
  | infoMsg
  | run (r : PCARun)
deriving DecidableEq, Repr

/-- The PCA tab (src/app.py lines 204-226): take the numeric columns, drop
rows with missing values, show a message unless at least 2 columns and 2
rows remain; otherwise standardize when the toggle is on, fit with the
chosen number of components, and scatter projected components 0 and 1. -/
def pcaTab (df : DataFrame) (scale : Bool) (components : ℕ) : PCATabResult :=
  let num := dropnaRows (selectCols df isNumType)
  if num.header.length < 2 ∨ num.rows.length < 2 then .infoMsg
  else
    let X := if scale then FitInput.standardized (numMatrix num) else FitInput.raw (numMatrix num)
    .run { fitInput := X, nComponents := components, plottedComponents := (0, 1) }

/-- Map over a row with the position of each cell, starting at `k`. -/
def mapIdxFrom (f : ℕ → Cell → Cell) : ℕ → List Cell → List Cell
  | _, [] => []
  | k, c :: cs => f k c :: mapIdxFrom f (k + 1) cs

/-- Whether column `j` of `df` exists and is numeric. -/
def colIsNum (df : DataFrame) (j : ℕ) : Bool :=
  ((df.header[j]?).map (fun hc => isNumType hc.2)).getD false

/-- Whether column `j` of `df` exists and is non-numeric. -/
def colIsCat (df : DataFrame) (j : ℕ) : Bool :=
  ((df.header[j]?).map (fun hc => !isNumType hc.2)).getD false

/-- Spec reading of one cell of the numeric imputation: a missing value in
a numeric column receives that column's median; every other cell is
untouched. -/
def specNumCell (df : DataFrame) (j : ℕ) (c : Cell) : Cell :=
  if colIsNum df j then fillNumCol (colMedianQ df j) c else c

/-- Spec reading of the numeric imputation as a single pointwise pass:
each NA of each numeric column is filled with that column's median, all
medians taken from the incoming dataframe. -/
def specImputeNum (df : DataFrame) : DataFrame :=
  { df with rows := df.rows.map (mapIdxFrom (specNumCell df) 0) }

/-- Spec reading of one cell of the categorical imputation: a missing
value in a non-numeric column receives that column's mode when the column
has one; every other cell is untouched. -/
def specCatCell (df : DataFrame) (j : ℕ) (c : Cell) : Cell :=
  if colIsCat df j then catUpdate (colModeQ df j) c else c

/-- Spec reading of the categorical imputation as a single pointwise pass. -/
def specImputeCat (df : DataFrame) : DataFrame :=
  { df with rows := df.rows.map (mapIdxFrom (specCatCell df) 0) }

/-- Spec reading of `clean`: three independently toggled transformations
applied in order — drop duplicate rows, then the pointwise numeric
median-fill, then the pointwise categorical mode-fill; a toggle that is
off skips its step entirely. -/
def specClean (dd im ic : Bool) (df : DataFrame) : DataFrame :=
  let s1 := if dd then dropDuplicates df else df
  let s2 := if im then specImputeNum s1 else s1
  let s3 := if ic then specImputeCat s2 else s2
  s3

/-- Spec reading of `select_dtypes(include=np.number)`: filter the header
by dtype and project every row onto the cells paired with a numeric
header entry. -/
def specNumericSub (df : DataFrame) : DataFrame :=
  { header := df.header.filter (fun hc => isNumType hc.2),
    rows := df.rows.map (fun r =>
      (df.header.zip r).filterMap (fun pr =>
        if isNumType pr.1.2 then some pr.2 else none)) }

/-- Names of the numeric columns of `df`, in order. -/
def numericColumns (df : DataFrame) : List String :=
  (df.header.filter (fun hc => isNumType hc.2)).map Prod.fst

/-- Spec reading of the correlation result: the pairwise Pearson matrix
of exactly the numeric columns. -/
def specCorrMatrix (df : DataFrame) : CorrMatrix :=
  let num := specNumericSub df
  { labels := num.header.map Prod.fst,
    entries := (List.range num.header.length).map (fun i =>
      (List.range num.header.length).map (fun j =>
        pearsonStats (colOptValues num i) (colOptValues num j))) }

/-- Spec reading of the PCA stage: it runs only when the NA-dropped
numeric data keeps at least 2 columns and 2 rows (otherwise an
informational message); the fitted matrix is the standardized numeric
data when the toggle is on and the raw values when it is off, the chosen
component count is passed to the decomposition, and the scatter shows
projected components 0 and 1. -/
def pcaSpecPipeline (df : DataFrame) (scale : Bool) (components : ℕ) : PCATabResult :=
  let num := dropnaRows (specNumericSub df)
  if 2 ≤ num.header.length ∧ 2 ≤ num.rows.length then
    .run { fitInput := if scale then .standardized (numMatrix num) else .raw (numMatrix num),
           nComponents := components, plottedComponents := (0, 1) }
  else .infoMsg

/-- Example frame with a categorical and a numeric column, used to probe
the scatter branch of the chart tab. -/
def exDfScatter : DataFrame :=
  { header := [("name", .categorical), ("age", .numeric)],
    rows := [[.cat (some "ann"), .num (some 3)],
             [.cat (some "bob"), .num (some 5)]] }

/-- Example frame with exactly one duplicated row. -/
def exDfOneDup : DataFrame :=
  { header := [("v", .numeric)],
    rows := [[.num (some 1)], [.num (some 2)], [.num (some 1)]] }

/-- Example frame that parses to zero rows. -/
def exDfEmpty : DataFrame :=
  { header := [("v", .numeric)], rows := [] }

/-- Example frame with an entirely missing categorical column. -/
def exDfAllNACat : DataFrame :=
  { header := [("c", .categorical)],
    rows := [[.cat none], [.cat none]] }

/-! Helper lemmas about cell access and the per-column imputation steps. -/

theorem fillColAt_getElem? (upd : Cell → Cell) (i : ℕ) (r : List Cell) (j : ℕ) :
    (fillColAt upd i r)[j]? = if j = i then (r[j]?).map upd else r[j]? := by
  by_cases hji : j = i
  · subst hji
    cases h : r[j]? with
    | none => simp [fillColAt, h]
    | some c =>
      have hlt : j < r.length := (List.getElem?_eq_some.mp h).1
      simp [fillColAt, h, List.getElem?_set_self hlt]
  · cases h : r[i]? with
    | none => simp [fillColAt, h, hji]
    | some c =>
      simp [fillColAt, h, hji, List.getElem?_set_ne (fun hij => hji hij.symm)]

theorem length_fillColAt (upd : Cell → Cell) (i : ℕ) (r : List Cell) :
    (fillColAt upd i r).length = r.length := by
  unfold fillColAt
  cases r[i]? <;> simp

theorem cellAt_mapRows (df : DataFrame) (g : List Cell → List Cell) (n j : ℕ) :
    cellAt { df with rows := df.rows.map g } n j
      = (df.rows[n]?).bind (fun r => (g r)[j]?) := by
  unfold cellAt
  simp only [List.getElem?_map]
  cases df.rows[n]? <;> rfl

theorem colCells_mapRows (df : DataFrame) (g : List Cell → List Cell) (j : ℕ) :
    colCells { df with rows := df.rows.map g } j
      = df.rows.filterMap (fun r => (g r)[j]?) := by
  unfold colCells
  rw [List.filterMap_map]
  rfl

theorem cellAt_fillNumColAt (df : DataFrame) (i n j : ℕ) :
    cellAt (fillNumColAt df i) n j =
      if j = i then (cellAt df n j).map (fillNumCol (colMedianQ df i)) else cellAt df n j := by
  unfold fillNumColAt
  rw [cellAt_mapRows]
  unfold cellAt
  cases df.rows[n]? with
  | none => split <;> rfl
  | some r => simp [fillColAt_getElem?]

theorem colCells_fillNumColAt_ne (df : DataFrame) (i j : ℕ) (hji : j ≠ i) :
    colCells (fillNumColAt df i) j = colCells df j := by
  unfold fillNumColAt
  rw [colCells_mapRows]
  unfold colCells
  congr 1
  funext r
  rw [fillColAt_getElem?, if_neg hji]

theorem cellAt_fillCatColAt (df : DataFrame) (i n j : ℕ) :
    cellAt (fillCatColAt df i) n j =
      if j = i then (cellAt df n j).map (catUpdate (colModeQ df i)) else cellAt df n j := by
  cases hm : colModeQ df i with
  | none =>
    have hstep : fillCatColAt df i = df := by
      unfold fillCatColAt
      rw [hm]
    rw [hstep]
    have hid : (cellAt df n j).map (catUpdate none) = cellAt df n j := by
      cases cellAt df n j <;> rfl
    rw [hid]
    split <;> rfl
  | some m =>
    have hstep : fillCatColAt df i
        = { df with rows := df.rows.map (fillColAt (fillCatCell m) i) } := by
      unfold fillCatColAt
      rw [hm]
    have hcu : catUpdate (some m) = fillCatCell m := rfl
    rw [hstep, cellAt_mapRows, hcu]
    unfold cellAt
    cases df.rows[n]? with
    | none => split <;> rfl
    | some r => simp [fillColAt_getElem?]

theorem colCells_fillCatColAt_ne (df : DataFrame) (i j : ℕ) (hji : j ≠ i) :
    colCells (fillCatColAt df i) j = colCells df j := by
  unfold fillCatColAt
  cases colModeQ df i with
  | none => rfl
  | some m =>
    rw [colCells_mapRows]
    unfold colCells
    congr 1
    funext r
    rw [fillColAt_getElem?, if_neg hji]

theorem foldl_colStep_cellAt
    (step : DataFrame → ℕ → DataFrame) (updOf : DataFrame → ℕ → Cell → Cell)
    (h1 : ∀ df i n j, cellAt (step df i) n j =
      if j = i then (cellAt df n j).map (updOf df i) else cellAt df n j)
    (h2 : ∀ df i j, j ≠ i → updOf (step df i) j = updOf df j) :
    ∀ (idxs : List ℕ), idxs.Nodup → ∀ (df : DataFrame) (n j : ℕ),
      cellAt (idxs.foldl step df) n j =
        if j ∈ idxs then (cellAt df n j).map (updOf df j) else cellAt df n j := by
  intro idxs
  induction idxs with
  | nil =>
    intro _ df n j
    simp
  | cons i rest ih =>
    intro hnd df n j
    have hnotmem : i ∉ rest := (List.nodup_cons.mp hnd).1
    have hndr : rest.Nodup := (List.nodup_cons.mp hnd).2
    rw [List.foldl_cons, ih hndr]
    by_cases hjr : j ∈ rest
    · have hji : j ≠ i := fun hh => hnotmem (hh ▸ hjr)
      rw [if_pos hjr, h2 _ _ _ hji, h1, if_neg hji, if_pos (List.mem_cons.mpr (Or.inr hjr))]
    · by_cases hji : j = i
      · subst hji
        rw [if_neg hjr, h1, if_pos rfl, if_pos (List.mem_cons.mpr (Or.inl rfl))]
      · rw [if_neg hjr, h1, if_neg hji,
          if_neg (fun hh => (List.mem_cons.mp hh).elim hji hjr)]

theorem colMedianQ_fillNumColAt_ne (df : DataFrame) (i j : ℕ) (hji : j ≠ i) :
    colMedianQ (fillNumColAt df i) j = colMedianQ df j := by
  unfold colMedianQ
  rw [colCells_fillNumColAt_ne df i j hji]

theorem colModeQ_fillCatColAt_ne (df : DataFrame) (i j : ℕ) (hji : j ≠ i) :
    colModeQ (fillCatColAt df i) j = colModeQ df j := by
  unfold colModeQ
  rw [colCells_fillCatColAt_ne df i j hji]

theorem nodup_selIdxs (df : DataFrame) (p : ColType → Bool) : (selIdxs df p).Nodup :=
  List.Nodup.filter _ (List.nodup_range _)

theorem cellAt_imputeNum (df : DataFrame) (n j : ℕ) :
    cellAt (imputeNum df) n j =
      if j ∈ numericIdxs df then
        (cellAt df n j).map (fillNumCol (colMedianQ df j))
      else cellAt df n j := by
  exact foldl_colStep_cellAt fillNumColAt (fun d k => fillNumCol (colMedianQ d k))
    cellAt_fillNumColAt
    (fun d i k hki => by
      show fillNumCol (colMedianQ (fillNumColAt d i) k) = fillNumCol (colMedianQ d k)
      rw [colMedianQ_fillNumColAt_ne d i k hki])
    (numericIdxs df) (nodup_selIdxs df isNumType) df n j

theorem cellAt_imputeCat (df : DataFrame) (n j : ℕ) :
    cellAt (imputeCat df) n j =
      if j ∈ catIdxs df then
        (cellAt df n j).map (catUpdate (colModeQ df j))
      else cellAt df n j := by
  exact foldl_colStep_cellAt fillCatColAt (fun d k => catUpdate (colModeQ d k))
    cellAt_fillCatColAt
    (fun d i k hki => by
      show catUpdate (colModeQ (fillCatColAt d i) k) = catUpdate (colModeQ d k)
      rw [colModeQ_fillCatColAt_ne d i k hki])
    (catIdxs df) (nodup_selIdxs df _) df n j

theorem foldl_header_eq (step : DataFrame → ℕ → DataFrame)
    (h : ∀ df i, (step df i).header = df.header) :
    ∀ (idxs : List ℕ) (df : DataFrame), (idxs.foldl step df).header = df.header := by
  intro idxs
  induction idxs with
  | nil => intro df; rfl
  | cons i rest ih => intro df; rw [List.foldl_cons, ih, h]

theorem foldl_rowsLen_eq (step : DataFrame → ℕ → DataFrame)
    (h : ∀ df i, (step df i).rows.length = df.rows.length) :
    ∀ (idxs : List ℕ) (df : DataFrame),
      (idxs.foldl step df).rows.length = df.rows.length := by
  intro idxs
  induction idxs with
  | nil => intro df; rfl
  | cons i rest ih => intro df; rw [List.foldl_cons, ih, h]

theorem header_fillNumColAt (df : DataFrame) (i : ℕ) :
    (fillNumColAt df i).header = df.header := rfl

theorem header_fillCatColAt (df : DataFrame) (i : ℕ) :
    (fillCatColAt df i).header = df.header := by
  unfold fillCatColAt
  cases colModeQ df i <;> rfl

theorem rowsLen_fillNumColAt (df : DataFrame) (i : ℕ) :
    (fillNumColAt df i).rows.length = df.rows.length := by
  unfold fillNumColAt
  simp

theorem rowsLen_fillCatColAt (df : DataFrame) (i : ℕ) :
    (fillCatColAt df i).rows.length = df.rows.length := by
  unfold fillCatColAt
  cases colModeQ df i <;> simp

theorem header_imputeNum (df : DataFrame) : (imputeNum df).header = df.header :=
  foldl_header_eq fillNumColAt header_fillNumColAt (numericIdxs df) df

theorem header_imputeCat (df : DataFrame) : (imputeCat df).header = df.header :=
  foldl_header_eq fillCatColAt header_fillCatColAt (catIdxs df) df

theorem rowsLen_imputeNum (df : DataFrame) : (imputeNum df).rows.length = df.rows.length :=
  foldl_rowsLen_eq fillNumColAt rowsLen_fillNumColAt (numericIdxs df) df

theorem rowsLen_imputeCat (df : DataFrame) : (imputeCat df).rows.length = df.rows.length :=
  foldl_rowsLen_eq fillCatColAt rowsLen_fillCatColAt (catIdxs df) df

theorem getElem?_mapIdxFrom (f : ℕ → Cell → Cell) (k : ℕ) (r : List Cell) (j : ℕ) :
    (mapIdxFrom f k r)[j]? = (r[j]?).map (f (k + j)) := by
  induction r generalizing k j with
  | nil => simp [mapIdxFrom]
  | cons c cs ih =>
    cases j with
    | zero => simp [mapIdxFrom]
    | succ m =>
      have harith : k + 1 + m = k + (m + 1) := by omega
      simp only [mapIdxFrom, List.getElem?_cons_succ, ih (k + 1) m, harith]

theorem dataFrame_ext (d1 d2 : DataFrame)
    (hh : d1.header = d2.header)
    (hlen : d1.rows.length = d2.rows.length)
    (hc : ∀ n j, cellAt d1 n j = cellAt d2 n j) : d1 = d2 := by
  obtain ⟨h1, r1⟩ := d1
  obtain ⟨h2, r2⟩ := d2
  simp only at hh hlen
  subst hh
  have hr : r1 = r2 := by
    apply List.ext_getElem?
    intro n
    cases h1n : r1[n]? with
    | none =>
      have hn1 : r1.length ≤ n := List.getElem?_eq_none_iff.mp h1n
      exact (List.getElem?_eq_none_iff.mpr (hlen ▸ hn1)).symm
    | some r =>
      have hlt : n < r1.length := (List.getElem?_eq_some.mp h1n).1
      cases h2n : r2[n]? with
      | none =>
        have := List.getElem?_eq_none_iff.mp h2n
        omega
      | some q =>
        have hrq : r = q := by
          apply List.ext_getElem?
          intro j
          have := hc n j
          unfold cellAt at this
          simp only at this
          rw [h1n, h2n] at this
          exact this
        rw [hrq]
  rw [hr]

theorem mem_numericIdxs (df : DataFrame) (j : ℕ) :
    j ∈ numericIdxs df ↔ colIsNum df j = true := by
  unfold numericIdxs selIdxs colIsNum
  rw [List.mem_filter, List.mem_range]
  constructor
  · rintro ⟨_, h⟩
    exact h
  · intro h
    refine ⟨?_, h⟩
    cases hh : df.header[j]? with
    | none =>
      rw [hh] at h
      simp at h
    | some hc => exact (List.getElem?_eq_some.mp hh).1

theorem mem_catIdxs (df : DataFrame) (j : ℕ) :
    j ∈ catIdxs df ↔ colIsCat df j = true := by
  unfold catIdxs selIdxs colIsCat
  rw [List.mem_filter, List.mem_range]
  constructor
  · rintro ⟨_, h⟩
    exact h
  · intro h
    refine ⟨?_, h⟩
    cases hh : df.header[j]? with
    | none =>
      rw [hh] at h
      simp at h
    | some hc => exact (List.getElem?_eq_some.mp hh).1

theorem cellAt_specImputeNum (df : DataFrame) (n j : ℕ) :
    cellAt (specImputeNum df) n j = (cellAt df n j).map (specNumCell df j) := by
  unfold specImputeNum
  rw [cellAt_mapRows]
  unfold cellAt
  cases df.rows[n]? with
  | none => rfl
  | some r => simp [getElem?_mapIdxFrom]

theorem cellAt_specImputeCat (df : DataFrame) (n j : ℕ) :
    cellAt (specImputeCat df) n j = (cellAt df n j).map (specCatCell df j) := by
  unfold specImputeCat
  rw [cellAt_mapRows]
  unfold cellAt
  cases df.rows[n]? with
  | none => rfl
  | some r => simp [getElem?_mapIdxFrom]

theorem length_mapIdxFrom (f : ℕ → Cell → Cell) (k : ℕ) (r : List Cell) :
    (mapIdxFrom f k r).length = r.length := by
  induction r generalizing k with
  | nil => rfl
  | cons c cs ih => simp [mapIdxFrom, ih]

theorem imputeNum_eq_spec (df : DataFrame) : imputeNum df = specImputeNum df := by
  apply dataFrame_ext
  · rw [header_imputeNum]
    rfl
  · rw [rowsLen_imputeNum]
    unfold specImputeNum
    simp
  · intro n j
    rw [cellAt_imputeNum, cellAt_specImputeNum]
    by_cases hm : j ∈ numericIdxs df
    · have hn : colIsNum df j = true := (mem_numericIdxs df j).mp hm
      rw [if_pos hm]
      cases cellAt df n j <;> simp [specNumCell, hn]
    · have hn : colIsNum df j = false := by
        rw [Bool.eq_false_iff]
        intro hh
        exact hm ((mem_numericIdxs df j).mpr hh)
      rw [if_neg hm]
      cases cellAt df n j <;> simp [specNumCell, hn]

theorem imputeCat_eq_spec (df : DataFrame) : imputeCat df = specImputeCat df := by
  apply dataFrame_ext
  · rw [header_imputeCat]
    rfl
  · rw [rowsLen_imputeCat]
    unfold specImputeCat
    simp
  · intro n j
    rw [cellAt_imputeCat, cellAt_specImputeCat]
    by_cases hm : j ∈ catIdxs df
    · have hn : colIsCat df j = true := (mem_catIdxs df j).mp hm
      rw [if_pos hm]
      cases cellAt df n j <;> simp [specCatCell, hn]
    · have hn : colIsCat df j = false := by
        rw [Bool.eq_false_iff]
        intro hh
        exact hm ((mem_catIdxs df j).mpr hh)
      rw [if_neg hm]
      cases cellAt df n j <;> simp [specCatCell, hn]

theorem mem_dedupFirst {α : Type} [DecidableEq α] (l : List α) (a : α) :
    a ∈ dedupFirst l ↔ a ∈ l := by
  induction l using dedupFirst.induct with
  | case1 => simp [dedupFirst]
  | case2 x xs ih =>
    simp only [dedupFirst, List.mem_cons]
    by_cases hax : a = x
    · subst hax
      simp
    · simp only [hax, false_or]
      rw [ih]
      rw [List.mem_filter]
      constructor
      · rintro ⟨h, _⟩
        exact h
      · intro h
        exact ⟨h, by simp [bne_iff_ne, hax]⟩

theorem nodup_dedupFirst {α : Type} [DecidableEq α] (l : List α) : (dedupFirst l).Nodup := by
  induction l using dedupFirst.induct with
  | case1 => simp [dedupFirst]
  | case2 x xs ih =>
    simp only [dedupFirst]
    refine List.nodup_cons.mpr ⟨?_, ih⟩
    intro hmem
    have hx := (List.mem_filter.mp ((mem_dedupFirst _ _).mp hmem)).2
    rw [bne_iff_ne] at hx
    exact hx rfl

theorem length_dedupFirst {α : Type} [DecidableEq α] (l : List α) :
    (dedupFirst l).length = l.toFinset.card := by
  induction l using dedupFirst.induct with
  | case1 => simp [dedupFirst]
  | case2 x xs ih =>
    simp only [dedupFirst, List.length_cons, List.toFinset_cons]
    rw [ih]
    have hfe : (xs.filter (fun y => y != x)).toFinset = xs.toFinset.erase x := by
      rw [List.toFinset_filter]
      have hcong : Finset.filter (fun y => ((y != x) = true)) xs.toFinset
          = Finset.filter (fun y => y ≠ x) xs.toFinset :=
        Finset.filter_congr (fun y _ => by simp [bne_iff_ne])
      rw [hcong, Finset.filter_ne']
    rw [hfe]
    have hins : insert x (xs.toFinset.erase x) = insert x xs.toFinset := by
      ext y
      simp only [Finset.mem_insert, Finset.mem_erase]
      constructor
      · rintro (h | ⟨_, h⟩)
        · exact Or.inl h
        · exact Or.inr h
      · rintro (h | h)
        · exact Or.inl h
        · by_cases hyx : y = x
          · exact Or.inl hyx
          · exact Or.inr ⟨hyx, h⟩
    rw [← hins, Finset.card_insert_of_not_mem (Finset.not_mem_erase x _)]

theorem dedupFirst_ne_nil {α : Type} [DecidableEq α] (l : List α) (h : l ≠ []) :
    dedupFirst l ≠ [] := by
  cases l with
  | nil => exact absurd rfl h
  | cons x xs => simp [dedupFirst]

theorem sel_filterMap_eq_filter {α : Type} (l : List α) (q : α → Bool) :
    ((List.range l.length).filter (fun i => ((l[i]?).map q).getD false)).filterMap
      (fun i => l[i]?) = l.filter q := by
  induction l with
  | nil => rfl
  | cons a as ih =>
    have hconds : (fun i => (((a :: as)[i]?).map q).getD false) ∘ Nat.succ
        = (fun i => ((as[i]?).map q).getD false) := by
      funext i
      simp [Nat.succ_eq_add_one]
    have hgets : (fun i => (a :: as)[i]?) ∘ Nat.succ = (fun i => as[i]?) := by
      funext i
      simp [Nat.succ_eq_add_one]
    rw [List.length_cons, List.range_succ_eq_map, List.filter_cons]
    simp only [List.getElem?_cons_zero, Option.map_some', Option.getD_some]
    by_cases hqa : q a = true
    · rw [if_pos hqa, List.filterMap_cons]
      simp only [List.getElem?_cons_zero]
      rw [List.filter_map, hconds, List.filterMap_map, hgets, ih, List.filter_cons, if_pos hqa]
    · rw [if_neg hqa, List.filter_map, hconds, List.filterMap_map, hgets, ih,
        List.filter_cons, if_neg hqa]

theorem sel_filterMap_zip {α β : Type} (l : List α) (r : List β) (q : α → Bool) :
    ((List.range l.length).filter (fun i => ((l[i]?).map q).getD false)).filterMap
      (fun i => r[i]?)
      = (l.zip r).filterMap (fun pr => if q pr.1 then some pr.2 else none) := by
  induction l generalizing r with
  | nil => rfl
  | cons a as ih =>
    cases r with
    | nil =>
      rw [List.zip_nil_right]
      simp
    | cons b bs =>
      have hconds : (fun i => (((a :: as)[i]?).map q).getD false) ∘ Nat.succ
          = (fun i => ((as[i]?).map q).getD false) := by
        funext i
        simp [Nat.succ_eq_add_one]
      have hgets : (fun i => (b :: bs)[i]?) ∘ Nat.succ = (fun i => bs[i]?) := by
        funext i
        simp [Nat.succ_eq_add_one]
      rw [List.length_cons, List.range_succ_eq_map, List.filter_cons]
      simp only [List.getElem?_cons_zero, Option.map_some', Option.getD_some]
      rw [List.zip_cons_cons, List.filterMap_cons]
      by_cases hqa : q a = true
      · rw [if_pos hqa, List.filterMap_cons]
        simp only [List.getElem?_cons_zero, hqa, if_true]
        rw [List.filter_map, hconds, List.filterMap_map, hgets, ih bs]
      · rw [if_neg hqa]
        rw [List.filter_map, hconds, List.filterMap_map, hgets, ih bs]
        simp [hqa]

theorem selectCols_eq_specNumericSub (df : DataFrame) :
    selectCols df isNumType = specNumericSub df := by
  unfold selectCols specNumericSub selIdxs
  congr 1
  · exact sel_filterMap_eq_filter df.header (fun hc => isNumType hc.2)
  · have hfun : ∀ r : List Cell,
        ((List.range df.header.length).filter
          (fun i => ((df.header[i]?).map (fun hc => isNumType hc.2)).getD false)).filterMap
          (fun i => r[i]?)
        = (df.header.zip r).filterMap (fun pr => if isNumType pr.1.2 then some pr.2 else none) :=
      fun r => sel_filterMap_zip df.header r (fun hc => isNumType hc.2)
    exact List.map_congr_left (fun r _ => hfun r)

theorem fillNumCol_catNA (m : Option ℚ) : fillNumCol m (Cell.cat none) = Cell.cat none := by
  cases m <;> rfl

theorem colModeQ_none_of_allNA (d : DataFrame) (i : ℕ)
    (h : ∀ r ∈ d.rows, r[i]? = some (Cell.cat none)) : colModeQ d i = none := by
  have hcv : catValues (colCells d i) = [] := by
    unfold catValues
    rw [List.filterMap_eq_nil_iff]
    intro c hc
    unfold colCells at hc
    obtain ⟨r, hr, hri⟩ := List.mem_filterMap.mp hc
    rw [h r hr] at hri
    injection hri with hh
    rw [← hh]
  unfold colModeQ
  rw [hcv]
  rfl

theorem dropDuplicates_preserves_allNACol (d : DataFrame) (i : ℕ)
    (h : ∀ r ∈ d.rows, r[i]? = some (Cell.cat none)) :
    ∀ r ∈ (dropDuplicates d).rows, r[i]? = some (Cell.cat none) := by
  intro r hr
  exact h r ((mem_dedupFirst d.rows r).mp hr)

theorem cellAt_of_allNACol (d : DataFrame) (i n : ℕ) (hlt : n < d.rows.length)
    (h : ∀ r ∈ d.rows, r[i]? = some (Cell.cat none)) :
    cellAt d n i = some (Cell.cat none) := by
  cases hdr : d.rows[n]? with
  | none =>
    rw [List.getElem?_eq_none_iff] at hdr
    omega
  | some r2 =>
    have hr2m : r2 ∈ d.rows := List.mem_iff_getElem?.mpr ⟨n, hdr⟩
    unfold cellAt
    rw [hdr]
    exact h r2 hr2m

theorem imputeNum_preserves_allNACol (d : DataFrame) (i : ℕ)
    (h : ∀ r ∈ d.rows, r[i]? = some (Cell.cat none)) :
    ∀ r ∈ (imputeNum d).rows, r[i]? = some (Cell.cat none) := by
  intro r hr
  obtain ⟨n, hn⟩ := List.mem_iff_getElem?.mp hr
  have hcell : cellAt (imputeNum d) n i = r[i]? := by
    unfold cellAt
    rw [hn]
    rfl
  have hlt : n < d.rows.length := by
    have := (List.getElem?_eq_some.mp hn).1
    rw [rowsLen_imputeNum] at this
    exact this
  have hdn : cellAt d n i = some (Cell.cat none) := cellAt_of_allNACol d i n hlt h
  rw [← hcell, cellAt_imputeNum, hdn]
  by_cases hm : i ∈ numericIdxs d
  · rw [if_pos hm]
    simp [fillNumCol_catNA]
  · rw [if_neg hm]

theorem imputeCat_preserves_allNACol (d : DataFrame) (i : ℕ)
    (h : ∀ r ∈ d.rows, r[i]? = some (Cell.cat none)) :
    ∀ r ∈ (imputeCat d).rows, r[i]? = some (Cell.cat none) := by
  intro r hr
  obtain ⟨n, hn⟩ := List.mem_iff_getElem?.mp hr
  have hcell : cellAt (imputeCat d) n i = r[i]? := by
    unfold cellAt
    rw [hn]
    rfl
  have hlt : n < d.rows.length := by
    have := (List.getElem?_eq_some.mp hn).1
    rw [rowsLen_imputeCat] at this
    exact this
  have hdn : cellAt d n i = some (Cell.cat none) := cellAt_of_allNACol d i n hlt h
  rw [← hcell, cellAt_imputeCat, hdn, colModeQ_none_of_allNA d i h]
  by_cases hm : i ∈ catIdxs d
  · rw [if_pos hm]
    rfl
  · rw [if_neg hm]

theorem ne_nil_of_same_len {α : Type} (l1 l2 : List α) (h : l1.length = l2.length)
    (h2 : l2 ≠ []) : l1 ≠ [] := by
  intro hnil
  apply h2
  apply List.length_eq_zero.mp
  rw [← h, hnil]
  rfl

/-! Claim theorems. -/

/-- Claim C1: for every input dataframe, `clean` applies exactly three
independently toggled transformations in order — when deduplication is on
it drops duplicate rows; when numeric imputation is on it fills each NA of
every numeric column with that column's median; when categorical
imputation is on it fills each NA of every non-numeric column with that
column's mode — and a toggle that is off skips its transformation, leaving
that aspect of the data unchanged. The right-hand side `specClean` is the
spec's reading: the composition of the three toggled steps with the
imputations as single pointwise passes. -/
theorem clean_is_three_toggled_steps (dd im ic : Bool) (df : DataFrame) :
    clean dd im ic df = specClean dd im ic df := by
  unfold clean specClean
  cases dd <;> cases im <;> cases ic <;>
    simp [imputeNum_eq_spec, imputeCat_eq_spec]

/-- Claim C2: cleaning is non-destructive — running the body of `clean`
statement by statement over the pair of live dataframes leaves the
caller's dataframe (`df_raw`) exactly as it was, and only the returned
copy `out` carries the transformations. -/
theorem clean_non_destructive (dd im ic : Bool) (df : DataFrame) :
    (cleanProg dd im ic df).arg = df ∧ (cleanProg dd im ic df).out = clean dd im ic df := by
  cases dd <;> cases im <;> cases ic <;>
    simp [cleanProg, stmtCopy, stmtDedup, stmtImputeNum, stmtImputeCat, clean]

/-- Claim C9: for every dataframe and every setting of the three cleaning
toggles, `clean` preserves the set and order of columns — the output
header (names with dtypes) is exactly the input header. -/
theorem clean_preserves_columns (dd im ic : Bool) (df : DataFrame) :
    (clean dd im ic df).header = df.header := by
  cases dd <;> cases im <;> cases ic <;>
    simp [clean, dropDuplicates, header_imputeNum, header_imputeCat]

/-- Claim C3: for every dataframe whose rows contain exactly one
duplicated row (a row `r` occurring twice, with the remaining rows and the
first `r` pairwise distinct), cleaning with deduplication enabled (and the
imputation toggles arbitrary) yields exactly one fewer row. -/
theorem clean_one_duplicate_row_drops_one (df : DataFrame) (im ic : Bool)
    (a b c : List (List Cell)) (r : List Cell)
    (hrows : df.rows = a ++ r :: (b ++ r :: c))
    (hnd : (a ++ r :: (b ++ c)).Nodup) :
    (clean true im ic df).rows.length + 1 = df.rows.length := by
  have hlen : (clean true im ic df).rows.length = (dedupFirst df.rows).length := by
    unfold clean
    cases im <;> cases ic <;>
      simp [rowsLen_imputeNum, rowsLen_imputeCat, dropDuplicates]
  rw [hlen, length_dedupFirst, hrows]
  have htf : (a ++ r :: (b ++ r :: c)).toFinset = (a ++ r :: (b ++ c)).toFinset := by
    simp [List.toFinset_append, List.toFinset_cons, Finset.union_insert,
      Finset.insert_idem, Finset.union_assoc]
  rw [htf, List.toFinset_card_of_nodup hnd]
  simp only [List.length_append, List.length_cons]
  omega

/-- Witness for claim C3 at a concrete frame with one duplicated row. -/
theorem clean_one_duplicate_row_drops_one_witness :
    exDfOneDup.rows
        = [] ++ [Cell.num (some 1)] :: ([[Cell.num (some 2)]] ++ [Cell.num (some 1)] :: []) ∧
    ([] ++ [Cell.num (some 1)] :: ([[Cell.num (some 2)]] ++ [])).Nodup ∧
    (clean true true true exDfOneDup).rows.length + 1 = exDfOneDup.rows.length :=
  ⟨rfl, by decide,
    clean_one_duplicate_row_drops_one exDfOneDup true true [] [[Cell.num (some 2)]] []
      [Cell.num (some 1)] rfl (by decide)⟩

/-- Claim C4: file ingestion dispatches on the uploaded file's lower-cased
final extension — exactly `xls`/`xlsx` go to the spreadsheet (Excel)
reader and every other name goes to the CSV reader — and when the reader
raises, the run shows the error message and halts: no stage (tab) runs. -/
theorem load_dispatch_and_reader_error_halts :
    (∀ name : String,
       (load_file name = ReaderKind.excel ↔
         fileSuffix name ∈ (["xls", "xlsx"] : List String)) ∧
       (load_file name = ReaderKind.csv ↔
         fileSuffix name ∉ (["xls", "xlsx"] : List String))) ∧
    (∀ msg : String,
       afterLoad (Except.error msg) = LoadOutcome.haltedWithError msg ∧
       stagesRun (afterLoad (Except.error msg)) = []) := by
  constructor
  · intro name
    constructor
    · unfold load_file
      split <;> simp_all
    · unfold load_file
      split <;> simp_all
  · intro msg
    exact ⟨rfl, rfl⟩

/-- Claim C5: an upload that parses to a dataframe with zero rows makes
the boundary show the empty-data warning and stop: no tab (preview, stats,
chart, PCA) runs, and the outcome is a value, not an exception. -/
theorem empty_upload_warns_and_stops (df : DataFrame) (h : df.rows = []) :
    afterLoad (Except.ok df) = LoadOutcome.haltedEmptyWarning ∧
    stagesRun (afterLoad (Except.ok df)) = [] := by
  have he : pandasEmpty df = true := by
    simp [pandasEmpty, h]
  refine ⟨?_, ?_⟩ <;> simp [afterLoad, he, stagesRun]

/-- Witness for claim C5 at a concrete zero-row frame. -/
theorem empty_upload_warns_and_stops_witness :
    exDfEmpty.rows = [] ∧
    (afterLoad (Except.ok exDfEmpty) = LoadOutcome.haltedEmptyWarning ∧
     stagesRun (afterLoad (Except.ok exDfEmpty)) = []) :=
  ⟨rfl, empty_upload_warns_and_stops exDfEmpty rfl⟩

/-- Claim C6, counterexample: selecting the scatter chart with a
non-numeric Y column does not show the informational message — the code
only guards `y == "(count)"`, so with the categorical column `name` as Y
it renders a raw-column scatter. -/
theorem scatter_nonnumeric_y_still_renders_chart :
    chartTab exDfScatter "age" "name" "(none)" "scatter" "count"
      = ChartResult.chart (Fig.scatterRaw exDfScatter "age" "name" none) ∧
    isNumericColumn exDfScatter "name" = false := by
  constructor
  · rfl
  · rfl

/-- Claim C6 (amended): whenever the scatter chart type is selected with Y
set to `"(count)"` (no Y column chosen), the chart tab shows an
informational message and renders no chart; a Y set to an actual column
(numeric or not) yields a raw-column scatter instead. -/
theorem scatter_count_y_shows_info_no_chart (df : DataFrame) (x color agg : String) :
    chartTab df x "(count)" color "scatter" agg = ChartResult.infoNoChart := by
  rfl

/-- Claim C7: the correlation helper returns `None` exactly when fewer
than two numeric columns exist, and the heatmap section then degrades to
an informational message; with at least two numeric columns it returns
the pairwise Pearson matrix labelled by exactly the numeric columns, and
the heatmap is rendered from it. -/
theorem corr_numeric_guard_and_labels (df : DataFrame) :
    corr_numeric df
        = (if (numericColumns df).length < 2 then none else some (specCorrMatrix df)) ∧
    corrTab df
        = (if (numericColumns df).length < 2 then CorrTabResult.infoMsg
           else CorrTabResult.heatmap (specCorrMatrix df)) ∧
    (specCorrMatrix df).labels = numericColumns df := by
  have hsel : selectCols df isNumType = specNumericSub df := selectCols_eq_specNumericSub df
  have hlen : (specNumericSub df).header.length = (numericColumns df).length := by
    unfold specNumericSub numericColumns
    simp
  have h1 : corr_numeric df
      = (if (numericColumns df).length < 2 then none else some (specCorrMatrix df)) := by
    simp only [corr_numeric]
    rw [hsel]
    by_cases hc : (numericColumns df).length < 2
    · rw [if_pos (by rw [hlen]; exact hc), if_pos hc]
    · rw [if_neg (by rw [hlen]; exact hc), if_neg hc]
      rfl
  refine ⟨h1, ?_, ?_⟩
  · unfold corrTab
    rw [h1]
    by_cases hc : (numericColumns df).length < 2
    · rw [if_pos hc, if_pos hc]
    · rw [if_neg hc, if_neg hc]
  · rfl

/-- Claim C8: the PCA tab follows the pipeline of the spec — it runs only
when the NA-dropped numeric data keeps at least 2 numeric columns and 2
rows (else an informational message); when it runs, the fitted matrix is
the standardized numeric data when the toggle is on and the raw numeric
values when off, the chosen component count is passed to the
decomposition, and the 2-D scatter shows projected components 0 and 1. -/
theorem pca_pipeline_matches_spec (df : DataFrame) (scale : Bool) (components : ℕ) :
    pcaTab df scale components = pcaSpecPipeline df scale components := by
  have hsel := selectCols_eq_specNumericSub df
  simp only [pcaTab, pcaSpecPipeline]
  rw [hsel]
  by_cases h : (dropnaRows (specNumericSub df)).header.length < 2 ∨
      (dropnaRows (specNumericSub df)).rows.length < 2
  · have hnp : ¬(2 ≤ (dropnaRows (specNumericSub df)).header.length ∧
        2 ≤ (dropnaRows (specNumericSub df)).rows.length) := by omega
    rw [if_pos h, if_neg hnp]
  · have hp : 2 ≤ (dropnaRows (specNumericSub df)).header.length ∧
        2 ≤ (dropnaRows (specNumericSub df)).rows.length := by omega
    rw [if_neg h, if_pos hp]

/-- Claim C10: when categorical imputation is enabled and a non-numeric
column is entirely NA (so it has no mode), `clean` silently leaves the
column's missing values in place — no error is raised (the whole run is a
value) and the cleaned output still contains the missing values of that
column. -/
theorem all_na_cat_column_keeps_missing (df : DataFrame) (i : ℕ) (nm : String) (dd im : Bool)
    (_hcol : df.header[i]? = some (nm, ColType.categorical))
    (hna : ∀ r ∈ df.rows, r[i]? = some (Cell.cat none))
    (hne : df.rows ≠ []) :
    (∀ r ∈ (clean dd im true df).rows, r[i]? = some (Cell.cat none)) ∧
    (clean dd im true df).rows ≠ [] := by
  cases dd <;> cases im
  · refine ⟨?_, ?_⟩
    · show ∀ r ∈ (imputeCat df).rows, r[i]? = some (Cell.cat none)
      exact imputeCat_preserves_allNACol df i hna
    · show (imputeCat df).rows ≠ []
      exact ne_nil_of_same_len _ _ (rowsLen_imputeCat df) hne
  · refine ⟨?_, ?_⟩
    · show ∀ r ∈ (imputeCat (imputeNum df)).rows, r[i]? = some (Cell.cat none)
      exact imputeCat_preserves_allNACol _ i (imputeNum_preserves_allNACol df i hna)
    · show (imputeCat (imputeNum df)).rows ≠ []
      exact ne_nil_of_same_len _ _ (rowsLen_imputeCat _)
        (ne_nil_of_same_len _ _ (rowsLen_imputeNum df) hne)
  · refine ⟨?_, ?_⟩
    · show ∀ r ∈ (imputeCat (dropDuplicates df)).rows, r[i]? = some (Cell.cat none)
      exact imputeCat_preserves_allNACol _ i (dropDuplicates_preserves_allNACol df i hna)
    · show (imputeCat (dropDuplicates df)).rows ≠ []
      exact ne_nil_of_same_len _ _ (rowsLen_imputeCat _) (dedupFirst_ne_nil df.rows hne)
  · refine ⟨?_, ?_⟩
    · show ∀ r ∈ (imputeCat (imputeNum (dropDuplicates df))).rows,
        r[i]? = some (Cell.cat none)
      exact imputeCat_preserves_allNACol _ i
        (imputeNum_preserves_allNACol _ i (dropDuplicates_preserves_allNACol df i hna))
    · show (imputeCat (imputeNum (dropDuplicates df))).rows ≠ []
      exact ne_nil_of_same_len _ _ (rowsLen_imputeCat _)
        (ne_nil_of_same_len _ _ (rowsLen_imputeNum _) (dedupFirst_ne_nil df.rows hne))

/-- Witness for claim C10 at a concrete frame whose only (categorical)
column is entirely NA. -/
theorem all_na_cat_column_keeps_missing_witness :
    exDfAllNACat.header[0]? = some ("c", ColType.categorical) ∧
    (∀ r ∈ exDfAllNACat.rows, r[0]? = some (Cell.cat none)) ∧
    exDfAllNACat.rows ≠ [] ∧
    ((∀ r ∈ (clean true true true exDfAllNACat).rows, r[0]? = some (Cell.cat none)) ∧
     (clean true true true exDfAllNACat).rows ≠ []) :=
  ⟨by decide, by decide, by decide,
    all_na_cat_column_keeps_missing exDfAllNACat 0 "c" true true (by decide) (by decide)
      (by decide)⟩
